import Mathlib

/-!
Verification of the UFO PID simulator (`ufo_sim.py`) and the deterministic
gain heuristic (`agent_tuner.py`).  Floating-point arithmetic of the source
is modelled over `ℚ`; Python decimal literals become the exact rationals
they denote in the source text.
-/

namespace UfoSim

/-- `clamp(x, lo, hi) = max(lo, min(hi, x))` from `ufo_sim.py`. -/
def clamp (x lo hi : ℚ) : ℚ := max lo (min hi x)

/-- State for the UFO attitude system (`UFOState` in `ufo_sim.py`). -/
structure UFOState where
  theta : ℚ
  omega : ℚ
  integ : ℚ
  e_prev : ℚ
  paused : Bool
deriving Repr, DecidableEq

/-- Continuous-time dynamics coefficients from `ufo_sim.py`. -/
def A11 : ℚ := 0
def A12 : ℚ := 1
def A21 : ℚ := 0.01
def A22 : ℚ := 0
def B1 : ℚ := 0
def B2 : ℚ := 1

/-- `pid_control` from `ufo_sim.py`: returns `(u, integ)`. -/
def pid_control (e e_prev integ dt kp ki kd : ℚ) : ℚ × ℚ :=
  let integ2 := integ + e * dt
  let deriv := (e - e_prev) / max dt 0.000001
  let u := kp * e + ki * integ2 + kd * deriv
  (u, integ2)

/-- `step_ufo` from `ufo_sim.py`: one discrete simulation step (Euler
integration).  Returns `(next_state, error, u)`. -/
def step_ufo (dt0 : ℚ) (state : UFOState) (kp ki kd : ℚ)
    (theta_ref : ℚ := 0) (u_limit : ℚ := 3.0) : UFOState × ℚ × ℚ :=
  let dt := max dt0 0.0001
  let e := theta_ref - state.theta
  let p := pid_control e state.e_prev state.integ dt kp ki kd
  let u := clamp p.1 (-u_limit) u_limit
  let integ := p.2
  let theta := state.theta
  let omega := state.omega
  let theta2 := if state.paused then theta
    else theta + dt * (A11 * theta + A12 * omega + B1 * u)
  let omega2 := if state.paused then omega
    else omega + dt * (A21 * theta + A22 * omega + B2 * u)
  (⟨theta2, omega2, integ, e, state.paused⟩, e, u)

/-- Accumulator threaded through the `rollout_metrics` loop. -/
structure RolloutAcc where
  s : UFOState
  iae : ℚ
  max_abs_e : ℚ
  max_abs_u : ℚ
  fuel : ℚ
deriving Repr, DecidableEq

/-- One iteration of the `for` loop in `rollout_metrics`. -/
def rolloutStep (dt kp ki kd u_limit : ℚ) (acc : RolloutAcc) : RolloutAcc :=
  let r := step_ufo dt acc.s kp ki kd 0 u_limit
  { s := r.1
    iae := acc.iae + |r.2.1| * dt
    max_abs_e := max acc.max_abs_e |r.2.1|
    max_abs_u := max acc.max_abs_u |r.2.2|
    fuel := acc.fuel + |r.2.2| * dt }

/-- The loop of `rollout_metrics` run `n` times. -/
def rolloutAccN (dt kp ki kd u_limit : ℚ) (acc : RolloutAcc) : ℕ → RolloutAcc
  | 0 => acc
  | n + 1 => rolloutStep dt kp ki kd u_limit (rolloutAccN dt kp ki kd u_limit acc n)

/-- `steps = int(max(2, seconds / max(dt, 1e-4)))` from `rollout_metrics`;
the argument of `int` is at least 2, so Python truncation is the floor. -/
def rolloutSteps (dt seconds : ℚ) : ℕ :=
  (Int.floor (max 2 (seconds / max dt 0.0001))).toNat

/-- Metrics dictionary returned by `rollout_metrics`. -/
structure Metrics where
  iae : ℚ
  max_abs_error : ℚ
  max_abs_u : ℚ
  fuel : ℚ
  seconds : ℚ
  dt : ℚ
deriving Repr, DecidableEq

/-- `rollout_metrics` from `ufo_sim.py`. -/
def rollout_metrics (dt kp ki kd : ℚ) (seconds : ℚ := 6.0) (theta0 : ℚ := 3.0)
    (omega0 : ℚ := 0.0) (u_limit : ℚ := 3.0) : Metrics :=
  let steps := rolloutSteps dt seconds
  let init : RolloutAcc := ⟨⟨theta0, omega0, 0, 0, false⟩, 0, 0, 0, 0⟩
  let fin := rolloutAccN dt kp ki kd u_limit init steps
  ⟨fin.iae, fin.max_abs_e, fin.max_abs_u, fin.fuel, seconds, dt⟩

/-- Invariant on the rollout accumulator used to bound the returned metrics:
`max_abs_u ∈ [0, L]`, `max_abs_e ≥ 0`, and (when `dt ≥ 0`) `iae, fuel ≥ 0`. -/
def MetricInv (dt L : ℚ) (acc : RolloutAcc) : Prop :=
  0 ≤ acc.max_abs_u ∧ acc.max_abs_u ≤ L ∧ 0 ≤ acc.max_abs_e
  ∧ (0 ≤ dt → 0 ≤ acc.iae ∧ 0 ≤ acc.fuel)

end UfoSim

namespace AgentTuner

open UfoSim (clamp)

/-- `compute_pid_gains` from `agent_tuner.py`: deterministic gain heuristic,
returning `(kp, ki, kd)` (the fixed note string is omitted). -/
def compute_pid_gains (theta0 dt0 : ℚ) : ℚ × ℚ × ℚ :=
  let dt := max dt0 0.001
  let a := |theta0|
  let kp := clamp (2.2 + 0.35 * min a 6.0) 0 10
  let ki := clamp (0.03 + 0.01 * min a 6.0) 0 2
  let kd0 : ℚ := 0.9
  let kd1 := if dt < 0.01 then kd0 * 0.7 else if dt > 0.08 then kd0 * 1.15 else kd0
  let kd := clamp kd1 0 5
  if a > 2.5 then (3.9, 1.17, 2.9) else (kp, ki, kd)

end AgentTuner

namespace Claims

open UfoSim AgentTuner

/-- C1: the worked example.  `step_ufo` with `dt = 0.05`, state
`{theta = 3, omega = 0, integ = 0, e_prev = 0, paused = false}`, gains
`kp = 2.2, ki = 0.03, kd = 0.9`, `theta_ref = 0`, `u_limit = 3` returns
error `e = -3`, saturated control `u = -3`, and next state
`theta = 3, omega = -0.1485, integ = -0.15, e_prev = -3`; the raw PID
output at those operands is `-60.6045`. -/
theorem c1_worked_example :
    step_ufo 0.05 ⟨3, 0, 0, 0, false⟩ 2.2 0.03 0.9 0 3
      = (⟨3, -0.1485, -0.15, -3, false⟩, -3, -3)
    ∧ (pid_control (-3) 0 0 0.05 2.2 0.03 0.9).1 = -60.6045 := by
  constructor <;>
    norm_num [step_ufo, pid_control, clamp, A11, A12, A21, A22, B1, B2,
      max_def, min_def, UFOState.mk.injEq, Prod.ext_iff]

/-- If the bounds are inverted (`hi < lo`), `clamp` returns `lo`. -/
theorem clamp_inverted (x lo hi : ℚ) (h : hi < lo) : clamp x lo hi = lo :=
  max_eq_left ((min_le_left hi x).trans h.le)

/-- `clamp` never goes below its lower bound. -/
theorem le_clamp (x lo hi : ℚ) : lo ≤ clamp x lo hi := le_max_left _ _

/-- With ordered bounds, `clamp` never exceeds its upper bound. -/
theorem clamp_le (x lo hi : ℚ) (h : lo ≤ hi) : clamp x lo hi ≤ hi :=
  max_le h (min_le_left hi x)

/-- For a nonnegative symmetric limit, the clamped value has small magnitude. -/
theorem abs_clamp_le (x L : ℚ) (h : 0 ≤ L) : |clamp x (-L) L| ≤ L :=
  abs_le.mpr ⟨le_max_left _ _, max_le (neg_le_self h) (min_le_left _ _)⟩

/-- C2: pause invariant.  When `state.paused` is true, `step_ufo` leaves
`theta` and `omega` unchanged, while the controller bookkeeping still runs:
the next `integ` is `integ + e * max(dt, 1e-4)` and the next `e_prev` is
this step's error `theta_ref - theta`. -/
theorem c2_pause_invariant (dt kp ki kd theta_ref u_limit : ℚ) (s : UFOState)
    (h : s.paused = true) :
    (step_ufo dt s kp ki kd theta_ref u_limit).1.theta = s.theta
    ∧ (step_ufo dt s kp ki kd theta_ref u_limit).1.omega = s.omega
    ∧ (step_ufo dt s kp ki kd theta_ref u_limit).1.integ
        = s.integ + (theta_ref - s.theta) * max dt 0.0001
    ∧ (step_ufo dt s kp ki kd theta_ref u_limit).1.e_prev = theta_ref - s.theta := by
  simp [step_ufo, pid_control, h]

/-- Witness for C2 at a concrete paused state. -/
theorem c2_pause_invariant_witness :
    (⟨3, 1, 2, 0, true⟩ : UFOState).paused = true
    ∧ ((step_ufo 0.05 ⟨3, 1, 2, 0, true⟩ 1 1 1 0 3).1.theta
          = (⟨3, 1, 2, 0, true⟩ : UFOState).theta
       ∧ (step_ufo 0.05 ⟨3, 1, 2, 0, true⟩ 1 1 1 0 3).1.omega
          = (⟨3, 1, 2, 0, true⟩ : UFOState).omega
       ∧ (step_ufo 0.05 ⟨3, 1, 2, 0, true⟩ 1 1 1 0 3).1.integ
          = (⟨3, 1, 2, 0, true⟩ : UFOState).integ
            + (0 - (⟨3, 1, 2, 0, true⟩ : UFOState).theta) * max 0.05 0.0001
       ∧ (step_ufo 0.05 ⟨3, 1, 2, 0, true⟩ 1 1 1 0 3).1.e_prev
          = 0 - (⟨3, 1, 2, 0, true⟩ : UFOState).theta) :=
  ⟨rfl, c2_pause_invariant 0.05 1 1 1 0 3 ⟨3, 1, 2, 0, true⟩ rfl⟩

/-- C3 counterexample: with `u_limit = -1` the returned control signal has
`|u| = 1 > -1 = u_limit`, so the saturation bound fails as stated. -/
theorem c3_counterexample :
    ¬ |(step_ufo 0.05 ⟨3, 0, 0, 0, false⟩ 2.2 0.03 0.9 0 (-1)).2.2| ≤ -1 := by
  norm_num [step_ufo, pid_control, clamp, max_def, min_def]

/-- C3 amended: for every input with `0 ≤ u_limit`, the control signal
returned by `step_ufo` satisfies `|u| ≤ u_limit`. -/
theorem c3_saturation_bound (dt : ℚ) (s : UFOState) (kp ki kd theta_ref u_limit : ℚ)
    (h : 0 ≤ u_limit) :
    |(step_ufo dt s kp ki kd theta_ref u_limit).2.2| ≤ u_limit := by
  show |clamp _ (-u_limit) u_limit| ≤ u_limit
  exact abs_clamp_le _ _ h

/-- Witness for the amended C3 at a concrete input. -/
theorem c3_saturation_bound_witness :
    (0 : ℚ) ≤ 3 ∧ |(step_ufo 0.05 ⟨3, 0, 0, 0, false⟩ 2.2 0.03 0.9 0 3).2.2| ≤ 3 :=
  ⟨by norm_num, c3_saturation_bound 0.05 ⟨3, 0, 0, 0, false⟩ 2.2 0.03 0.9 0 3 (by norm_num)⟩

/-- C4: dt floor equivalence.  `step_ufo` with `dt = 0` returns exactly the
same `(next state, error, u)` triple as with `dt = 1e-4`, for every state,
gains, reference and limit. -/
theorem c4_dt_floor (s : UFOState) (kp ki kd theta_ref u_limit : ℚ) :
    step_ufo 0 s kp ki kd theta_ref u_limit
      = step_ufo 0.0001 s kp ki kd theta_ref u_limit := by
  norm_num [step_ufo, max_def]

/-- C5: heuristic discontinuity at `|theta0| = 2.5`.  At `theta0 = 2.4`,
`dt = 0.02` the smooth formula gives `(3.04, 0.054, 0.9)`; at `theta0 = 2.6`
the override `(3.9, 1.17, 2.9)` is returned; and whenever `|theta0| > 2.5`
the override triple is returned regardless of the formula values. -/
theorem c5_heuristic_discontinuity :
    compute_pid_gains 2.4 0.02 = (3.04, 0.054, 0.9)
    ∧ compute_pid_gains 2.6 0.02 = (3.9, 1.17, 2.9)
    ∧ ∀ theta0 dt : ℚ, |theta0| > 2.5 → compute_pid_gains theta0 dt = (3.9, 1.17, 2.9) := by
  refine ⟨?_, ?_, ?_⟩
  · norm_num [compute_pid_gains, clamp, max_def, min_def, abs_of_nonneg]
  · norm_num [compute_pid_gains, clamp, max_def, min_def, abs_of_nonneg]
  · intro theta0 dt h
    simp only [compute_pid_gains, if_pos h]

/-- Witness for C5 on the override branch at `theta0 = -3`. -/
theorem c5_heuristic_discontinuity_witness :
    |(-3 : ℚ)| > 2.5 ∧ compute_pid_gains (-3) 0.05 = (3.9, 1.17, 2.9) :=
  ⟨by norm_num, c5_heuristic_discontinuity.2.2 (-3) 0.05 (by norm_num)⟩

/-- C7: heuristic output range.  For every `theta0` and `dt` the gain
heuristic returns `kp ∈ [0,10]`, `ki ∈ [0,2]`, `kd ∈ [0,5]`, including on
the `a > 2.5` override branch. -/
theorem c7_heuristic_range (theta0 dt : ℚ) :
    0 ≤ (compute_pid_gains theta0 dt).1 ∧ (compute_pid_gains theta0 dt).1 ≤ 10
    ∧ 0 ≤ (compute_pid_gains theta0 dt).2.1 ∧ (compute_pid_gains theta0 dt).2.1 ≤ 2
    ∧ 0 ≤ (compute_pid_gains theta0 dt).2.2 ∧ (compute_pid_gains theta0 dt).2.2 ≤ 5 := by
  by_cases h : |theta0| > 2.5
  · simp only [compute_pid_gains, if_pos h]
    norm_num
  · simp only [compute_pid_gains, if_neg h]
    exact ⟨le_clamp _ _ _, clamp_le _ _ _ (by norm_num),
      le_clamp _ _ _, clamp_le _ _ _ (by norm_num),
      le_clamp _ _ _, clamp_le _ _ _ (by norm_num)⟩

/-- C8: `clamp` with inverted bounds returns `lo`; consequently `step_ufo`
with a negative `u_limit` returns `u = -u_limit`, a positive value, for
every state and gains. -/
theorem c8_clamp_inverted_bounds :
    (∀ x lo hi : ℚ, lo > hi → clamp x lo hi = lo)
    ∧ ∀ (dt : ℚ) (s : UFOState) (kp ki kd theta_ref u_limit : ℚ), u_limit < 0 →
        (step_ufo dt s kp ki kd theta_ref u_limit).2.2 = -u_limit := by
  constructor
  · exact fun x lo hi h => clamp_inverted x lo hi h
  · intro dt s kp ki kd theta_ref u_limit h
    show clamp _ (-u_limit) u_limit = -u_limit
    exact clamp_inverted _ _ _ (h.trans (neg_pos.mpr h))

/-- Witness for C8: `clamp 0 5 1 = 5`, and at `u_limit = -1` the step
returns `u = 1`. -/
theorem c8_clamp_inverted_bounds_witness :
    (5 : ℚ) > 1 ∧ clamp 0 5 1 = 5
    ∧ (-1 : ℚ) < 0
    ∧ (step_ufo 0.05 ⟨3, 0, 0, 0, false⟩ 2.2 0.03 0.9 0 (-1)).2.2 = -(-1 : ℚ) :=
  ⟨by norm_num, c8_clamp_inverted_bounds.1 0 5 1 (by norm_num), by norm_num,
    c8_clamp_inverted_bounds.2 0.05 ⟨3, 0, 0, 0, false⟩ 2.2 0.03 0.9 0 (-1) (by norm_num)⟩

/-- The control output of `step_ufo` is the clamped raw PID output. -/
theorem step_ufo_u_eq (dt : ℚ) (s : UFOState) (kp ki kd theta_ref u_limit : ℚ) :
    (step_ufo dt s kp ki kd theta_ref u_limit).2.2
      = clamp (pid_control (theta_ref - s.theta) s.e_prev s.integ (max dt 0.0001) kp ki kd).1
          (-u_limit) u_limit := rfl

/-- For a nonnegative limit, the control output of `step_ufo` is bounded. -/
theorem step_ufo_abs_u_le (dt : ℚ) (s : UFOState) (kp ki kd theta_ref u_limit : ℚ)
    (h : 0 ≤ u_limit) : |(step_ufo dt s kp ki kd theta_ref u_limit).2.2| ≤ u_limit := by
  rw [step_ufo_u_eq]
  exact abs_clamp_le _ _ h

/-- The dt floor: a step with `dt = 0` equals a step with `dt = 1e-4`. -/
theorem step_ufo_zero (s : UFOState) (kp ki kd theta_ref u_limit : ℚ) :
    step_ufo 0 s kp ki kd theta_ref u_limit
      = step_ufo 0.0001 s kp ki kd theta_ref u_limit := by
  norm_num [step_ufo, max_def]

/-- One rollout iteration preserves the metric invariant. -/
theorem rolloutStep_inv (dt kp ki kd L : ℚ) (hL : 0 ≤ L) (acc : RolloutAcc)
    (h : MetricInv dt L acc) : MetricInv dt L (rolloutStep dt kp ki kd L acc) := by
  simp only [MetricInv, rolloutStep] at h ⊢
  obtain ⟨h1, h2, h3, h4⟩ := h
  refine ⟨le_trans h1 (le_max_left _ _), max_le h2 (step_ufo_abs_u_le _ _ _ _ _ _ _ hL),
    le_trans h3 (le_max_left _ _), fun hdt => ?_⟩
  obtain ⟨hi, hf⟩ := h4 hdt
  exact ⟨add_nonneg hi (mul_nonneg (abs_nonneg _) hdt),
    add_nonneg hf (mul_nonneg (abs_nonneg _) hdt)⟩

/-- The rollout loop preserves the metric invariant for any iteration count. -/
theorem rolloutAccN_inv (dt kp ki kd L : ℚ) (hL : 0 ≤ L) (acc : RolloutAcc)
    (h : MetricInv dt L acc) (n : ℕ) : MetricInv dt L (rolloutAccN dt kp ki kd L acc n) := by
  induction n with
  | zero => exact h
  | succ n ih => exact rolloutStep_inv dt kp ki kd L hL _ ih

/-- For nonnegative `dt`, each rollout iteration can only increase `iae`. -/
theorem rolloutAccN_iae_le_succ (dt kp ki kd L : ℚ) (hdt : 0 ≤ dt) (acc : RolloutAcc)
    (n : ℕ) :
    (rolloutAccN dt kp ki kd L acc n).iae ≤ (rolloutAccN dt kp ki kd L acc (n + 1)).iae := by
  simp only [rolloutAccN, rolloutStep]
  exact le_add_of_nonneg_right (mul_nonneg (abs_nonneg _) hdt)

/-- For nonnegative `dt`, the accumulated `iae` is monotone in the iteration
count. -/
theorem rolloutAccN_iae_mono (dt kp ki kd L : ℚ) (hdt : 0 ≤ dt) (acc : RolloutAcc) :
    Monotone fun n => (rolloutAccN dt kp ki kd L acc n).iae :=
  monotone_nat_of_le_succ (rolloutAccN_iae_le_succ dt kp ki kd L hdt acc)

/-- The rollout step count is monotone in the horizon `seconds`. -/
theorem rolloutSteps_mono (dt s1 s2 : ℚ) (h : s1 ≤ s2) :
    rolloutSteps dt s1 ≤ rolloutSteps dt s2 := by
  have hdt : (0 : ℚ) < max dt 0.0001 := lt_of_lt_of_le (by norm_num) (le_max_right _ _)
  have hdiv : s1 / max dt 0.0001 ≤ s2 / max dt 0.0001 := by gcongr
  exact Int.toNat_le_toNat (Int.floor_le_floor (max_le_max le_rfl hdiv))

/-- With `dt = 0`, every rollout iteration adds `|e| * 0` to `iae` and
`|u| * 0` to `fuel`, so both accumulators stay at their initial values. -/
theorem rolloutAccN_zero_dt_iae_fuel (kp ki kd L : ℚ) (acc : RolloutAcc) (n : ℕ) :
    (rolloutAccN 0 kp ki kd L acc n).iae = acc.iae
    ∧ (rolloutAccN 0 kp ki kd L acc n).fuel = acc.fuel := by
  induction n with
  | zero => exact ⟨rfl, rfl⟩
  | succ n ih =>
    simp only [rolloutAccN, rolloutStep, mul_zero, add_zero]
    exact ih

/-- With `dt = 0`, the state trajectory of the rollout equals the trajectory
with `dt = 1e-4` (the internal steps use the floored dt). -/
theorem rolloutAccN_state_floor (kp ki kd L : ℚ) (acc : RolloutAcc) (n : ℕ) :
    (rolloutAccN 0 kp ki kd L acc n).s = (rolloutAccN 0.0001 kp ki kd L acc n).s := by
  induction n with
  | zero => rfl
  | succ n ih =>
    simp only [rolloutAccN, rolloutStep]
    rw [ih, step_ufo_zero]

/-- C6 counterexample: with `dt = -1` (and zero gains, `theta0 = 3`),
increasing the horizon from `seconds = 2e-4` to `seconds = 3e-4` strictly
decreases the returned `iae`, refuting the monotone-horizon claim. -/
theorem c6_counterexample :
    (0.0002 : ℚ) < 0.0003
    ∧ (rollout_metrics (-1) 0 0 0 0.0003 3 0 3).iae
        < (rollout_metrics (-1) 0 0 0 0.0002 3 0 3).iae := by
  refine ⟨by norm_num, ?_⟩
  have h2 : rolloutSteps (-1) 0.0002 = 2 := by
    norm_num [rolloutSteps, max_def]
    rfl
  have h3 : rolloutSteps (-1) 0.0003 = 3 := by
    norm_num [rolloutSteps, max_def]
    rfl
  simp only [rollout_metrics, h2, h3]
  norm_num [rolloutAccN, rolloutStep, step_ufo, pid_control, clamp, max_def, min_def,
    A11, A12, A21, A22, B1, B2, abs_of_nonpos, abs_of_nonneg]

/-- C6 amended: for `dt ≥ 0`, increasing the horizon `seconds` while holding
all other rollout parameters fixed never decreases the returned `iae`. -/
theorem c6_rollout_monotone_horizon (dt kp ki kd theta0 omega0 u_limit s1 s2 : ℚ)
    (hdt : 0 ≤ dt) (hs : s1 ≤ s2) :
    (rollout_metrics dt kp ki kd s1 theta0 omega0 u_limit).iae
      ≤ (rollout_metrics dt kp ki kd s2 theta0 omega0 u_limit).iae := by
  simp only [rollout_metrics]
  exact rolloutAccN_iae_mono dt kp ki kd u_limit hdt _ (rolloutSteps_mono dt s1 s2 hs)

/-- Witness for the amended C6 at concrete horizons `1 ≤ 2`. -/
theorem c6_rollout_monotone_horizon_witness :
    (0 : ℚ) ≤ 0.05 ∧ (1 : ℚ) ≤ 2
    ∧ (rollout_metrics 0.05 1 1 1 1 3 0 3).iae ≤ (rollout_metrics 0.05 1 1 1 2 3 0 3).iae :=
  ⟨by norm_num, by norm_num,
    c6_rollout_monotone_horizon 0.05 1 1 1 3 0 3 1 2 (by norm_num) (by norm_num)⟩

/-- C9: rollout metric bounds.  For `u_limit ≥ 0` the returned `max_abs_u`
lies in `[0, u_limit]` and `max_abs_error ≥ 0`; additionally for `dt ≥ 0`
the returned `iae` and `fuel` are nonnegative. -/
theorem c9_rollout_metric_bounds (dt kp ki kd seconds theta0 omega0 u_limit : ℚ)
    (hL : 0 ≤ u_limit) :
    0 ≤ (rollout_metrics dt kp ki kd seconds theta0 omega0 u_limit).max_abs_u
    ∧ (rollout_metrics dt kp ki kd seconds theta0 omega0 u_limit).max_abs_u ≤ u_limit
    ∧ 0 ≤ (rollout_metrics dt kp ki kd seconds theta0 omega0 u_limit).max_abs_error
    ∧ (0 ≤ dt →
        0 ≤ (rollout_metrics dt kp ki kd seconds theta0 omega0 u_limit).iae
        ∧ 0 ≤ (rollout_metrics dt kp ki kd seconds theta0 omega0 u_limit).fuel) := by
  have h := rolloutAccN_inv dt kp ki kd u_limit hL ⟨⟨theta0, omega0, 0, 0, false⟩, 0, 0, 0, 0⟩
    ⟨le_refl 0, hL, le_refl 0, fun _ => ⟨le_refl 0, le_refl 0⟩⟩ (rolloutSteps dt seconds)
  simp only [MetricInv] at h
  simp only [rollout_metrics]
  exact ⟨h.1, h.2.1, h.2.2.1, h.2.2.2⟩

/-- Witness for C9 at a concrete rollout input. -/
theorem c9_rollout_metric_bounds_witness :
    (0 : ℚ) ≤ 3
    ∧ (0 ≤ (rollout_metrics 0.05 1 0 0 0.0001 3 0 3).max_abs_u
       ∧ (rollout_metrics 0.05 1 0 0 0.0001 3 0 3).max_abs_u ≤ 3
       ∧ 0 ≤ (rollout_metrics 0.05 1 0 0 0.0001 3 0 3).max_abs_error
       ∧ ((0 : ℚ) ≤ 0.05 →
           0 ≤ (rollout_metrics 0.05 1 0 0 0.0001 3 0 3).iae
           ∧ 0 ≤ (rollout_metrics 0.05 1 0 0 0.0001 3 0 3).fuel)) :=
  ⟨by norm_num, c9_rollout_metric_bounds 0.05 1 0 0 0.0001 3 0 3 (by norm_num)⟩

/-- C10: the rollout accumulates with the raw `dt`, not the floored one.
With `dt = 0` the returned `iae` and `fuel` are both `0`; the loop still runs
`int(max(2, seconds / 1e-4))` steps; each step advances the state exactly as
with `dt = 1e-4`; and at a concrete input (`kp = 1`, `theta0 = 3`,
`seconds = 1e-4`) the returned `max_abs_error` and `max_abs_u` are `3 ≠ 0`. -/
theorem c10_rollout_raw_dt (kp ki kd seconds theta0 omega0 u_limit : ℚ) :
    (rollout_metrics 0 kp ki kd seconds theta0 omega0 u_limit).iae = 0
    ∧ (rollout_metrics 0 kp ki kd seconds theta0 omega0 u_limit).fuel = 0
    ∧ rolloutSteps 0 seconds = (Int.floor (max 2 (seconds / 0.0001))).toNat
    ∧ (∀ (acc : RolloutAcc) (n : ℕ),
        (rolloutAccN 0 kp ki kd u_limit acc n).s
          = (rolloutAccN 0.0001 kp ki kd u_limit acc n).s)
    ∧ (rollout_metrics 0 1 0 0 0.0001 3 0 3).max_abs_error = 3
    ∧ (rollout_metrics 0 1 0 0 0.0001 3 0 3).max_abs_u = 3 := by
  have hev : rollout_metrics 0 1 0 0 0.0001 3 0 3 = ⟨0, 3, 3, 0, 0.0001, 0⟩ := by
    have h2 : rolloutSteps 0 0.0001 = 2 := by
      norm_num [rolloutSteps, max_def]
      rfl
    simp only [rollout_metrics, h2]
    norm_num [rolloutAccN, rolloutStep, step_ufo, pid_control, clamp, max_def, min_def,
      A11, A12, A21, A22, B1, B2, abs_of_nonpos, abs_of_nonneg, Metrics.mk.injEq]
  refine ⟨?_, ?_, ?_, fun acc n => rolloutAccN_state_floor kp ki kd u_limit acc n, ?_, ?_⟩
  · simp only [rollout_metrics]
    exact (rolloutAccN_zero_dt_iae_fuel kp ki kd u_limit _ _).1
  · simp only [rollout_metrics]
    exact (rolloutAccN_zero_dt_iae_fuel kp ki kd u_limit _ _).2
  · norm_num [rolloutSteps]
  · rw [hev]
  · rw [hev]

end Claims
